import Mathlib

/-!
Verification of the AST-based analysis engine of this repository
(`server/services/AnalysisEngine.js` and the background analysis loop of the
analysis route file).

The JavaScript engine walks an ESTree-style syntax tree and emits findings
("issues").  We embed the tree shallowly: a node carries its `type` string,
its source location, the scalar fields the analyzers read (`name`,
`operator`), and its child links grouped by the field they live in
(`callee`, `property`, `test`, `body`, `elements`, other children).  Each
single-object child field is modelled as a list of length at most one,
mirroring the fact that `traverseAST` recurses into any object field with a
`type` tag and into any array of objects.  Array holes (`null` elements) and
the exact per-constructor field order of the front-ends are not modelled;
neither affects the properties below.  Machine timestamps (`Date.now()`)
are threaded as an explicit `now : Nat` parameter.
-/

/-- Source location of a node: `loc.start` in the ESTree tree. -/
structure Loc where
  line : Nat
  column : Nat
deriving DecidableEq, Repr

/-- Shallow embedding of an ESTree node as traversed by `traverseAST`. -/
inductive Node where
  | mk (ntype : String) (loc : Loc) (name : Option String) (operator : Option String)
       (callee : List Node) (property : List Node) (test : List Node)
       (body : List Node) (elements : List Node) (children : List Node)
deriving Repr

def Node.ntype : Node → String
  | .mk t _ _ _ _ _ _ _ _ _ => t

def Node.loc : Node → Loc
  | .mk _ l _ _ _ _ _ _ _ _ => l

def Node.name : Node → Option String
  | .mk _ _ n _ _ _ _ _ _ _ => n

def Node.operator : Node → Option String
  | .mk _ _ _ o _ _ _ _ _ _ => o

def Node.callee : Node → List Node
  | .mk _ _ _ _ c _ _ _ _ _ => c

def Node.property : Node → List Node
  | .mk _ _ _ _ _ p _ _ _ _ => p

def Node.test : Node → List Node
  | .mk _ _ _ _ _ _ te _ _ _ => te

def Node.body : Node → List Node
  | .mk _ _ _ _ _ _ _ b _ _ => b

def Node.elements : Node → List Node
  | .mk _ _ _ _ _ _ _ _ e _ => e

mutual
/-- Structural equality on nodes; stands in for the reference equality that
`Array.prototype.indexOf` uses in `analyzeBugs` (parser-produced siblings
always differ in their `loc`, so the two coincide on real trees). -/
def Node.beq : Node → Node → Bool
  | .mk t1 l1 n1 o1 c1 p1 te1 b1 e1 ch1, .mk t2 l2 n2 o2 c2 p2 te2 b2 e2 ch2 =>
    t1 == t2 && l1 == l2 && n1 == n2 && o1 == o2 &&
    Node.beqList c1 c2 && Node.beqList p1 p2 && Node.beqList te1 te2 &&
    Node.beqList b1 b2 && Node.beqList e1 e2 && Node.beqList ch1 ch2
def Node.beqList : List Node → List Node → Bool
  | [], [] => true
  | x :: xs, y :: ys => Node.beq x y && Node.beqList xs ys
  | _, _ => false
end

mutual
/-- Embedding of `traverseAST(node, callback, parent)`: the pre-order list of
visited nodes, each paired with the parent pointer the traversal wrote onto
it (the root gets `null`). -/
def preorderP (parent : Option Node) : Node → List (Node × Option Node)
  | .mk t l n o c p te b e ch =>
    (Node.mk t l n o c p te b e ch, parent) ::
      (preorderPList (some (Node.mk t l n o c p te b e ch)) c ++
       preorderPList (some (Node.mk t l n o c p te b e ch)) p ++
       preorderPList (some (Node.mk t l n o c p te b e ch)) te ++
       preorderPList (some (Node.mk t l n o c p te b e ch)) b ++
       preorderPList (some (Node.mk t l n o c p te b e ch)) e ++
       preorderPList (some (Node.mk t l n o c p te b e ch)) ch)
def preorderPList (parent : Option Node) : List Node → List (Node × Option Node)
  | [] => []
  | x :: xs => preorderP parent x ++ preorderPList parent xs
end

/-- The node sequence `traverseAST` feeds to its callback, parents dropped. -/
def preorder (ast : Node) : List Node :=
  (preorderP none ast).map Prod.fst

/-- One detected issue, mirroring the literal objects pushed by the engine;
`cwe` embeds `metadata.cwe`. -/
structure RuleRef where
  id : String
  name : String
  category : String
  documentation : Option String := none
deriving DecidableEq, Repr

structure FileLoc where
  path : String
  line : Nat
  column : Nat
deriving DecidableEq, Repr

structure Suggestion where
  fix : String
  confidence : Nat
deriving DecidableEq, Repr

structure Finding where
  id : String
  type : String
  severity : String
  title : String
  description : String
  file : FileLoc
  rule : RuleRef
  suggestion : Option Suggestion := none
  cwe : List String := []
deriving DecidableEq, Repr

structure Metrics where
  complexity : Nat
  lines : Nat
  functions : Nat
  classes : Nat
deriving DecidableEq, Repr

structure FileAnalysis where
  issues : List Finding
  metrics : Metrics
deriving DecidableEq, Repr

/-- The `complexity` rule of `this.rules` (threshold 10, category
maintainability); the threshold is kept separately below. -/
def complexityRule : RuleRef :=
  { id := "complexity", name := "Cyclomatic Complexity", category := "maintainability" }

def complexityThreshold : Nat := 10

/-- The switch of `calculateComplexity`: how one callback invocation updates
the running counter. -/
def complexityStep (acc : Nat) (n : Node) : Nat :=
  match n.ntype with
  | "IfStatement" | "ConditionalExpression" | "SwitchCase"
  | "ForStatement" | "ForInStatement" | "ForOfStatement"
  | "WhileStatement" | "DoWhileStatement" | "CatchClause" => acc + 1
  | "LogicalExpression" =>
      if n.operator == some ("&&") || n.operator == some ("||") then acc + 1 else acc
  | _ => acc

/-- `calculateComplexity(ast)`: base complexity 1, bumped per visited node. -/
def calculateComplexity (ast : Node) : Nat :=
  (preorder ast).foldl complexityStep 1

/-- `countFunctions(ast)`. -/
def countFunctions (ast : Node) : Nat :=
  (preorder ast).countP (fun n =>
    n.ntype == "FunctionDeclaration" || n.ntype == "FunctionExpression" ||
    n.ntype == "ArrowFunctionExpression")

/-- `countClasses(ast)`. -/
def countClasses (ast : Node) : Nat :=
  (preorder ast).countP (fun n => n.ntype == "ClassDeclaration")

mutual
/-- `findNestedLoops(node, depth)`: depth-tracked maximum loop nesting,
counting `for`, `while` and `do-while` nodes, the given node included. -/
def findNestedLoops : Node → Nat → Nat
  | .mk t _ _ _ c p te b e ch, depth =>
    max (if t == "ForStatement" || t == "WhileStatement" || t == "DoWhileStatement"
          then depth + 1 else depth)
      (max (findNestedLoopsList c
              (if t == "ForStatement" || t == "WhileStatement" || t == "DoWhileStatement"
                then depth + 1 else depth))
        (max (findNestedLoopsList p
                (if t == "ForStatement" || t == "WhileStatement" || t == "DoWhileStatement"
                  then depth + 1 else depth))
          (max (findNestedLoopsList te
                  (if t == "ForStatement" || t == "WhileStatement" || t == "DoWhileStatement"
                    then depth + 1 else depth))
            (max (findNestedLoopsList b
                    (if t == "ForStatement" || t == "WhileStatement" || t == "DoWhileStatement"
                      then depth + 1 else depth))
              (max (findNestedLoopsList e
                      (if t == "ForStatement" || t == "WhileStatement" || t == "DoWhileStatement"
                        then depth + 1 else depth))
                (findNestedLoopsList ch
                  (if t == "ForStatement" || t == "WhileStatement" || t == "DoWhileStatement"
                    then depth + 1 else depth)))))))
def findNestedLoopsList : List Node → Nat → Nat
  | [], _ => 0
  | x :: xs, depth => max (findNestedLoops x depth) (findNestedLoopsList xs depth)
end

/-- The synthetic issue pushed by `analyzeFile`'s catch block. -/
def parseErrorFinding (now : Nat) (filePath msg : String) : Finding :=
  { id := "parse-error-" ++ toString now
    type := "bug"
    severity := "high"
    title := "Parse Error"
    description := "Failed to parse file: " ++ msg
    file := { path := filePath, line := 1, column := 1 }
    rule := { id := "parse-error", name := "Parse Error", category := "syntax" } }

/-- The issue pushed by `analyzeComplexity` when the threshold is exceeded. -/
def complexityFinding (now : Nat) (filePath : String) (complexity : Nat) : Finding :=
  { id := "complexity-" ++ filePath ++ "-" ++ toString now
    type := "complexity"
    severity := if 20 < complexity then "high" else "medium"
    title := "High Cyclomatic Complexity (" ++ toString complexity ++ ")"
    description := "This file has a cyclomatic complexity of " ++ toString complexity ++
      ", which exceeds the recommended threshold of " ++ toString complexityThreshold ++ "."
    file := { path := filePath, line := 1, column := 1 }
    rule := complexityRule
    suggestion := some
      { fix := "Consider breaking down complex functions into smaller, more manageable pieces."
        confidence := 80 } }

/-- `analyzeComplexity(ast, filePath)`. -/
def analyzeComplexity (now : Nat) (ast : Node) (filePath : String) : List Finding :=
  if complexityThreshold < calculateComplexity ast then
    [complexityFinding now filePath (calculateComplexity ast)]
  else []

/-- The `eval()` issue of `analyzeSecurity`. -/
def securityEvalFinding (filePath : String) (n : Node) : Finding :=
  { id := "security-eval-" ++ filePath ++ "-" ++ toString n.loc.line
    type := "security"
    severity := "critical"
    title := "Dangerous eval() usage"
    description := "Using eval() can lead to code injection vulnerabilities."
    file := { path := filePath, line := n.loc.line, column := n.loc.column }
    rule := { id := "no-eval", name := "No eval()", category := "security"
              documentation := some ("https://eslint.org/docs/rules/no-eval") }
    cwe := ["CWE-95"] }

/-- The `innerHTML` issue of `analyzeSecurity`. -/
def securityInnerHtmlFinding (filePath : String) (n : Node) : Finding :=
  { id := "security-innerHTML-" ++ filePath ++ "-" ++ toString n.loc.line
    type := "security"
    severity := "high"
    title := "Potential XSS vulnerability"
    description := "Direct innerHTML manipulation can lead to XSS attacks."
    file := { path := filePath, line := n.loc.line, column := n.loc.column }
    rule := { id := "no-innerHTML", name := "No innerHTML", category := "security" }
    cwe := ["CWE-79"] }

/-- Predicate of the first security check: a call whose callee is named
`eval` (`node.type === 'CallExpression' && node.callee &&
node.callee.name === 'eval'`). -/
def isEvalCall (n : Node) : Bool :=
  n.ntype == "CallExpression" && n.callee.head?.bind Node.name == some ("eval")

/-- Predicate of the second security check: a member access whose property
is named `innerHTML`. -/
def isInnerHtmlAccess (n : Node) : Bool :=
  n.ntype == "MemberExpression" && n.property.head?.bind Node.name == some ("innerHTML")

/-- The issues one callback invocation of `analyzeSecurity` pushes. -/
def securityChecksAt (filePath : String) (n : Node) : List Finding :=
  (if isEvalCall n then [securityEvalFinding filePath n] else []) ++
  (if isInnerHtmlAccess n then [securityInnerHtmlFinding filePath n] else [])

/-- `analyzeSecurity(ast, filePath, language)`: gated to javascript and
typescript, otherwise no traversal runs. -/
def analyzeSecurity (ast : Node) (filePath language : String) : List Finding :=
  if language == "javascript" || language == "typescript" then
    (preorder ast).foldl (fun acc n => acc ++ securityChecksAt filePath n) []
  else []

/-- The nested-loop issue of `analyzePerformance`. -/
def nestedLoopFinding (filePath : String) (n : Node) (levels : Nat) : Finding :=
  { id := "performance-nested-loops-" ++ filePath ++ "-" ++ toString n.loc.line
    type := "performance"
    severity := "medium"
    title := "Deeply nested loops (" ++ toString levels ++ " levels)"
    description := "Deeply nested loops can cause performance issues."
    file := { path := filePath, line := n.loc.line, column := n.loc.column }
    rule := { id := "max-nested-loops", name := "Maximum nested loops", category := "performance" } }

/-- The large-array issue of `analyzePerformance`. -/
def largeArrayFinding (filePath : String) (n : Node) : Finding :=
  { id := "performance-large-array-" ++ filePath ++ "-" ++ toString n.loc.line
    type := "performance"
    severity := "low"
    title := "Large array literal"
    description := "Array with " ++ toString n.elements.length ++
      " elements may impact performance."
    file := { path := filePath, line := n.loc.line, column := n.loc.column }
    rule := { id := "max-array-size", name := "Maximum array size", category := "performance" } }

/-- The issues one callback invocation of `analyzePerformance` pushes.  Note
the nested-loop check fires only on `ForStatement`/`WhileStatement` nodes,
although `findNestedLoops` itself also counts `DoWhileStatement`. -/
def performanceChecksAt (filePath : String) (n : Node) : List Finding :=
  (if n.ntype == "ForStatement" || n.ntype == "WhileStatement" then
    (if 2 < findNestedLoops n 0 then [nestedLoopFinding filePath n (findNestedLoops n 0)] else [])
   else []) ++
  (if n.ntype == "ArrayExpression" && 1000 < n.elements.length then
    [largeArrayFinding filePath n]
   else [])

/-- `analyzePerformance(ast, filePath, language)`. -/
def analyzePerformance (ast : Node) (filePath language : String) : List Finding :=
  if language == "javascript" || language == "typescript" then
    (preorder ast).foldl (fun acc n => acc ++ performanceChecksAt filePath n) []
  else []

/-- The dead-code issue of `analyzeBugs`; `ret` is the return statement (its
line is baked into the id), `nxt` the first statement after it. -/
def unreachableFinding (filePath : String) (ret nxt : Node) : Finding :=
  { id := "bug-unreachable-" ++ filePath ++ "-" ++ toString ret.loc.line
    type := "bug"
    severity := "medium"
    title := "Unreachable code after return"
    description := "Code after return statement will never be executed."
    file := { path := filePath, line := nxt.loc.line, column := nxt.loc.column }
    rule := { id := "no-unreachable", name := "No unreachable code", category := "bug" } }

/-- The assignment-in-condition issue of `analyzeBugs`. -/
def assignmentConditionFinding (filePath : String) (n t : Node) : Finding :=
  { id := "bug-assignment-condition-" ++ filePath ++ "-" ++ toString n.loc.line
    type := "bug"
    severity := "high"
    title := "Assignment in condition"
    description := "Assignment in condition is likely a mistake. Did you mean to use == or ===?"
    file := { path := filePath, line := t.loc.line, column := t.loc.column }
    rule := { id := "no-assignment-in-condition", name := "No assignment in condition"
              category := "bug" } }

/-- `parent.body.indexOf(node)`, with `none` for JavaScript's `-1`. -/
def idxOfNode (n : Node) (l : List Node) : Option Nat :=
  l.findIdx? (fun m => Node.beq m n)

/-- The issues one callback invocation of `analyzeBugs` pushes for the
visited node `n` whose traversal parent is `par`.  In the `none` branch of
`idxOfNode`, JavaScript's `indexOf` returns `-1` and the guard
`-1 < length - 1` still holds for a nonempty body, locating the issue at
`body[0]`; this never fires on parser-shaped trees (a return statement found
under a block parent sits in its `body`). -/
def bugChecksAt (filePath : String) (n : Node) (par : Option Node) : List Finding :=
  (match par with
   | some parent =>
     if n.ntype == "ReturnStatement" && parent.ntype == "BlockStatement" then
       match idxOfNode n parent.body with
       | some i =>
         match parent.body[i + 1]? with
         | some nxt => [unreachableFinding filePath n nxt]
         | none => []
       | none =>
         match parent.body[0]? with
         | some nxt => [unreachableFinding filePath n nxt]
         | none => []
     else []
   | none => []) ++
  (if n.ntype == "IfStatement" || n.ntype == "WhileStatement" then
    match n.test.head? with
    | some t => if t.ntype == "AssignmentExpression" then
        [assignmentConditionFinding filePath n t] else []
    | none => []
   else [])

/-- `analyzeBugs(ast, filePath, language)`. -/
def analyzeBugs (ast : Node) (filePath language : String) : List Finding :=
  if language == "javascript" || language == "typescript" then
    (preorderP none ast).foldl (fun acc pr => acc ++ bugChecksAt filePath pr.1 pr.2) []
  else []

/-- `parsePython(content)`: a fixed empty `Module` stub, ignoring content. -/
def parsePython (_content : String) : Node :=
  Node.mk ("Module") ⟨1, 0⟩ none none [] [] [] [] [] []

/-- `parseFile(content, language)`.  The javascript/typescript front-ends
(esprima, @typescript-eslint/parser) are external collaborators and are
passed in as functions; a thrown parse error is an `Except.error` which
`parseFile` re-throws.  `python` is parsed by the local stub; every other
language hits the `default` branch and yields no tree (`null`). -/
def parseFile (jsParse tsParse : String → Except String Node)
    (content language : String) : Except String (Option Node) :=
  if language == "javascript" then (jsParse content).map some
  else if language == "typescript" then (tsParse content).map some
  else if language == "python" then .ok (some (parsePython content))
  else .ok none

/-- Line count of the raw content: `content.split('\n').length`. -/
def lineCount (content : String) : Nat :=
  (String.splitOn content (String.singleton (Char.ofNat 10))).length

/-- `analyzeFile(filePath, content, language)` given the outcome of
`parseFile`.  The built-in analyzers and metric passes are total functions,
so the try/catch boundary reduces to: a parse error yields the single
synthetic finding with zeroed tree metrics, a missing tree yields no issues,
and a tree yields the four analyzer outputs in declaration order plus the
computed metrics.  (`analyzeFileSteps` below keeps the catch-at-any-stage
behaviour for fallible analyzers.) -/
def analyzeFile (now : Nat) (parseRes : Except String (Option Node))
    (filePath content language : String) : FileAnalysis :=
  match parseRes with
  | .error msg =>
    { issues := [parseErrorFinding now filePath msg]
      metrics := { complexity := 0, lines := lineCount content, functions := 0, classes := 0 } }
  | .ok none =>
    { issues := []
      metrics := { complexity := 0, lines := lineCount content, functions := 0, classes := 0 } }
  | .ok (some ast) =>
    { issues := analyzeComplexity now ast filePath ++ analyzeSecurity ast filePath language ++
        analyzePerformance ast filePath language ++ analyzeBugs ast filePath language
      metrics := { complexity := calculateComplexity ast, lines := lineCount content
                   functions := countFunctions ast, classes := countClasses ast } }

/-- `analyzeFile` composed with `parseFile`. -/
def analyzeFileFull (now : Nat) (jsParse tsParse : String → Except String Node)
    (filePath content language : String) : FileAnalysis :=
  analyzeFile now (parseFile jsParse tsParse content language) filePath content language

/-- The try/catch sequencing of `analyzeFile` with each stage allowed to
throw, mirroring the JavaScript control flow: `issues` already pushed stay;
the first failing stage jumps to the catch block, which appends the
synthetic parse-error finding; metric fields keep the values assigned
before the failure (`complexity`, then `functions`, then `classes`). -/
def analyzeFileSteps (now : Nat) (filePath : String) (lines : Nat)
    (parseRes : Except String (Option Node))
    (runComplexity runSecurity runPerformance runBugs : Node → Except String (List Finding))
    (runCalcComplexity runCountFunctions runCountClasses : Node → Except String Nat) :
    FileAnalysis :=
  match parseRes with
  | .error e =>
    { issues := [parseErrorFinding now filePath e]
      metrics := { complexity := 0, lines := lines, functions := 0, classes := 0 } }
  | .ok none =>
    { issues := [], metrics := { complexity := 0, lines := lines, functions := 0, classes := 0 } }
  | .ok (some ast) =>
    match runComplexity ast with
    | .error e =>
      { issues := [parseErrorFinding now filePath e]
        metrics := { complexity := 0, lines := lines, functions := 0, classes := 0 } }
    | .ok i1 =>
      match runSecurity ast with
      | .error e =>
        { issues := i1 ++ [parseErrorFinding now filePath e]
          metrics := { complexity := 0, lines := lines, functions := 0, classes := 0 } }
      | .ok i2 =>
        match runPerformance ast with
        | .error e =>
          { issues := i1 ++ i2 ++ [parseErrorFinding now filePath e]
            metrics := { complexity := 0, lines := lines, functions := 0, classes := 0 } }
        | .ok i3 =>
          match runBugs ast with
          | .error e =>
            { issues := i1 ++ i2 ++ i3 ++ [parseErrorFinding now filePath e]
              metrics := { complexity := 0, lines := lines, functions := 0, classes := 0 } }
          | .ok i4 =>
            match runCalcComplexity ast with
            | .error e =>
              { issues := i1 ++ i2 ++ i3 ++ i4 ++ [parseErrorFinding now filePath e]
                metrics := { complexity := 0, lines := lines, functions := 0, classes := 0 } }
            | .ok cx =>
              match runCountFunctions ast with
              | .error e =>
                { issues := i1 ++ i2 ++ i3 ++ i4 ++ [parseErrorFinding now filePath e]
                  metrics := { complexity := cx, lines := lines, functions := 0, classes := 0 } }
              | .ok fns =>
                match runCountClasses ast with
                | .error e =>
                  { issues := i1 ++ i2 ++ i3 ++ i4 ++ [parseErrorFinding now filePath e]
                    metrics := { complexity := cx, lines := lines, functions := fns, classes := 0 } }
                | .ok cls =>
                  { issues := i1 ++ i2 ++ i3 ++ i4
                    metrics := { complexity := cx, lines := lines
                                 functions := fns, classes := cls } }

/-- The `supportedLanguages` extension table, in declaration order. -/
def supportedLanguages : List (String × List String) :=
  [("javascript", [".js", ".jsx", ".mjs"]),
   ("typescript", [".ts", ".tsx"]),
   ("python", [".py"]),
   ("java", [".java"]),
   ("go", [".go"]),
   ("rust", [".rs"]),
   ("cpp", [".cpp", ".cc", ".cxx", ".hpp", ".h"])]

/-- ASCII lower-casing, modelling `String.prototype.toLowerCase()` on the
extension strings at hand. -/
def asciiLowerChar (c : Char) : Char :=
  if 65 ≤ c.toNat ∧ c.toNat ≤ 90 then Char.ofNat (c.toNat + 32) else c

def asciiLower (s : String) : String :=
  String.mk (s.data.map asciiLowerChar)

/-- `getLanguageFromFile`, taking the already-extracted extension
(`path.extname(filePath)` is library behaviour): lower-cases it and returns
the first language whose extension list contains it. -/
def getLanguageFromExt (ext : String) : Option String :=
  (supportedLanguages.find? (fun lc => lc.2.contains (asciiLower ext))).map Prod.fst

/-- One `results.files` entry of `analyzeRepository`. -/
structure RepoFileEntry where
  path : String
  language : String
  fileMetrics : Metrics
  issuesCount : Nat
deriving DecidableEq, Repr

/-- `results.summary` of `analyzeRepository`. -/
structure RepoSummary where
  totalFiles : Nat
  analyzedFiles : Nat
  totalIssues : Nat
  criticalIssues : Nat
  highIssues : Nat
  mediumIssues : Nat
  lowIssues : Nat
  totalLines : Nat
deriving DecidableEq, Repr

/-- The aggregate `results` object of `analyzeRepository`. -/
structure RepoResult where
  summary : RepoSummary
  files : List RepoFileEntry
  issues : List Finding
deriving DecidableEq, Repr

/-- `results.summary[issue.severity + 'Issues']++` together with
`results.summary.totalIssues++`; every finding the engine builds carries one
of the four severities. -/
def bumpSeverity (s : RepoSummary) (sev : String) : RepoSummary :=
  { s with
    totalIssues := s.totalIssues + 1
    criticalIssues := s.criticalIssues + (if sev == "critical" then 1 else 0)
    highIssues := s.highIssues + (if sev == "high" then 1 else 0)
    mediumIssues := s.mediumIssues + (if sev == "medium" then 1 else 0)
    lowIssues := s.lowIssues + (if sev == "low" then 1 else 0) }

/-- The per-file body of `analyzeRepository`'s loop.  A file whose content
read fails is caught and skipped; a file with no resolved language is
skipped; otherwise `analyzeFile` runs and the aggregates are updated. -/
def repoStep (now : Nat) (jsParse tsParse : String → Except String Node)
    (resolve : String → Option String) (res : RepoResult)
    (pf : String × Except String String) : RepoResult :=
  match pf.2 with
  | .error _ => res
  | .ok content =>
    match resolve pf.1 with
    | none => res
    | some language =>
      let fa := analyzeFileFull now jsParse tsParse pf.1 content language
      { summary :=
          fa.issues.foldl (fun s iss => bumpSeverity s iss.severity)
            { res.summary with
              analyzedFiles := res.summary.analyzedFiles + 1
              totalLines := res.summary.totalLines + fa.metrics.lines }
        files := res.files ++
          [{ path := pf.1, language := language, fileMetrics := fa.metrics
             issuesCount := fa.issues.length }]
        issues := res.issues ++ fa.issues }

/-- `analyzeRepository(repositoryPath, options)`, with the filesystem scan
abstracted into the `(path, content-or-read-error)` list and language
resolution into `resolve`.  The loop runs over every file; it consults no
cancellation flag of any kind. -/
def analyzeRepository (now : Nat) (jsParse tsParse : String → Except String Node)
    (resolve : String → Option String)
    (files : List (String × Except String String)) : RepoResult :=
  files.foldl (repoStep now jsParse tsParse resolve)
    { summary := { totalFiles := files.length, analyzedFiles := 0, totalIssues := 0
                   criticalIssues := 0, highIssues := 0, mediumIssues := 0, lowIssues := 0
                   totalLines := 0 }
      files := [], issues := [] }

/-- `analyzeRepository` in an environment where a cancellation request may
arrive after the file whose 0-based index is `cancelAfter`.  The parameter
is deliberately unread: the source loop of `analyzeRepository` has no
cancellation check, so an external request cannot influence the result. -/
def analyzeRepositoryUnderCancelRequest (_cancelAfter : Option Nat) (now : Nat)
    (jsParse tsParse : String → Except String Node) (resolve : String → Option String)
    (files : List (String × Except String String)) : RepoResult :=
  analyzeRepository now jsParse tsParse resolve files

/-- Result of the background analysis loop of the analysis route
(`startAnalysis`): `processedFiles`, the paths analyzed in order, and the
issues accumulated via `analysis.addIssue`. -/
structure LoopResult where
  processedFiles : Nat
  processedPaths : List String
  issues : List Finding
deriving DecidableEq, Repr

/-- The `for (const file of sourceFiles)` loop of `startAnalysis` in the
analysis route: before starting file number `i` it reads the analysis
status (`statusCancelled i` says whether that read sees `cancelled`) and
breaks if so; a content-fetch failure is caught, logged and skipped without
incrementing `processedFiles`; otherwise the engine's `analyzeFile` runs on
the fetched content.  A file whose language resolves to nothing would reach
`parseFile`'s default branch, like passing `null` in JavaScript; the
`sourceFiles` list is pre-filtered so this does not happen. -/
def startAnalysisLoop (now : Nat) (jsParse tsParse : String → Except String Node)
    (resolve : String → Option String) (statusCancelled : Nat → Bool) :
    Nat → List (String × Except String String) → LoopResult
  | _, [] => { processedFiles := 0, processedPaths := [], issues := [] }
  | i, (path, fetched) :: fs =>
    if statusCancelled i then { processedFiles := 0, processedPaths := [], issues := [] }
    else
      match fetched with
      | .error _ => startAnalysisLoop now jsParse tsParse resolve statusCancelled (i + 1) fs
      | .ok content =>
        let language := (resolve path).getD ("")
        let fa := analyzeFileFull now jsParse tsParse path content language
        let rest := startAnalysisLoop now jsParse tsParse resolve statusCancelled (i + 1) fs
        { processedFiles := rest.processedFiles + 1
          processedPaths := path :: rest.processedPaths
          issues := fa.issues ++ rest.issues }

/-- Concatenated per-node output of a traversal callback. -/
def emitAll (g : α → List β) : List α → List β
  | [] => []
  | x :: xs => g x ++ emitAll g xs

/-- The decision-point predicate as the claim words it: `if`, ternary,
`switch`-case, every loop kind, `catch` clause, or a short-circuit logical
operator. -/
def isDecisionPoint (n : Node) : Bool :=
  n.ntype == "IfStatement" || n.ntype == "ConditionalExpression" ||
  n.ntype == "SwitchCase" || n.ntype == "ForStatement" || n.ntype == "ForInStatement" ||
  n.ntype == "ForOfStatement" || n.ntype == "WhileStatement" ||
  n.ntype == "DoWhileStatement" || n.ntype == "CatchClause" ||
  (n.ntype == "LogicalExpression" &&
    (n.operator == some ("&&") || n.operator == some ("||")))

/-- Concrete tree fixtures used by the scenario parts of the claims. -/
def identNode (nm : String) (line col : Nat) : Node :=
  .mk ("Identifier") ⟨line, col⟩ (some nm) none [] [] [] [] [] []

def ifNode (line : Nat) : Node :=
  .mk ("IfStatement") ⟨line, 0⟩ none none [] [] [identNode ("c") line 4] [] [] []

def programNode (stmts : List Node) : Node :=
  .mk ("Program") ⟨1, 0⟩ none none [] [] [] stmts [] []

def astTwelveIfs : Node :=
  programNode ((List.range 12).map (fun i => ifNode (i + 1)))

def callEvalNode (line col : Nat) : Node :=
  .mk ("CallExpression") ⟨line, col⟩ none none [identNode ("eval") line col] [] [] [] [] []

def memberInnerHtmlNode (line col : Nat) : Node :=
  .mk ("MemberExpression") ⟨line, col⟩ none none [] [identNode ("innerHTML") line col] [] [] [] []

def astTwoEvalsOneLine : Node :=
  programNode [callEvalNode 1 0, callEvalNode 1 10]

def astEvalAndInnerHtml : Node :=
  programNode [callEvalNode 2 0, memberInnerHtmlNode 2 5]

def forNode (line : Nat) (b : List Node) : Node :=
  .mk ("ForStatement") ⟨line, 0⟩ none none [] [] [] b [] []

def doWhileNode (line : Nat) (b : List Node) : Node :=
  .mk ("DoWhileStatement") ⟨line, 0⟩ none none [] [] [] b [] []

def astThreeFors : Node :=
  programNode [forNode 1 [forNode 2 [forNode 3 []]]]

def astThreeDoWhiles : Node :=
  programNode [doWhileNode 1 [doWhileNode 2 [doWhileNode 3 []]]]

def returnNode (line : Nat) : Node :=
  .mk ("ReturnStatement") ⟨line, 0⟩ none none [] [] [] [] [] []

def exprStmtNode (line : Nat) : Node :=
  .mk ("ExpressionStatement") ⟨line, 0⟩ none none [] [] [] [] [] [identNode ("x") line 0]

def blockNode (line : Nat) (stmts : List Node) : Node :=
  .mk ("BlockStatement") ⟨line, 0⟩ none none [] [] [] stmts [] []

def astReturnThenDead : Node :=
  programNode [blockNode 1 [returnNode 1, exprStmtNode 2]]

def failingParser : String → Except String Node :=
  fun _ => .error ("unexpected token")

def sampleFindingA : Finding :=
  { id := "sample-a", type := "security", severity := "critical", title := "A"
    description := "a"
    file := { path := "f.js", line := 1, column := 0 }
    rule := { id := "rule-a", name := "A", category := "security" } }

def sampleFindingB : Finding :=
  { id := "sample-b", type := "performance", severity := "medium", title := "B"
    description := "b"
    file := { path := "f.js", line := 2, column := 0 }
    rule := { id := "rule-b", name := "B", category := "performance" } }

def sampleAst : Node := programNode []

def c5Run : FileAnalysis :=
  analyzeFileSteps 0 ("f.js") 1 (.ok (some sampleAst))
    (fun _ => .ok [sampleFindingA]) (fun _ => .error ("security analyzer threw"))
    (fun _ => .ok [sampleFindingB]) (fun _ => .ok [])
    (fun _ => .ok 1) (fun _ => .ok 0) (fun _ => .ok 0)

def trivialProgram : Node := programNode []

def okJsParser : String → Except String Node := fun _ => .ok trivialProgram

def alwaysJavascript : String → Option String := fun _ => some ("javascript")

def twoRepoFiles : List (String × Except String String) :=
  [("a.js", .ok ("x")), ("b.js", .ok ("y"))]

/-- Whether a fetched content value is a successful read. -/
def fetchOk (e : Except String String) : Bool :=
  match e with
  | .ok _ => true
  | .error _ => false

def schedAfterOne : Nat → Bool := fun i => Nat.ble 1 i

example : calculateComplexity (Node.mk ("Program") ⟨1, 0⟩ none none [] [] [] [] [] []) = 1 := by
  decide

theorem foldl_emit (g : α → List β) (l : List α) (init : List β) :
    l.foldl (fun acc x => acc ++ g x) init = init ++ emitAll g l := by
  induction l generalizing init with
  | nil => simp [emitAll]
  | cons x xs ih => simp only [List.foldl_cons, emitAll]; rw [ih]; simp

theorem emitAll_filter (p : β → Bool) (g : α → List β) (l : List α) :
    (emitAll g l).filter p = emitAll (fun a => (g a).filter p) l := by
  induction l with
  | nil => simp [emitAll]
  | cons x xs ih => simp [emitAll, List.filter_append, ih]

theorem emitAll_ite_map (c : α → Bool) (f : α → β) (l : List α) :
    emitAll (fun a => if c a then [f a] else []) l = (l.filter c).map f := by
  induction l with
  | nil => simp [emitAll]
  | cons x xs ih =>
    by_cases h : c x <;> simp [emitAll, h, ih, List.filter_cons]

theorem mem_emitAll {g : α → List β} {l : List α} {b : β} :
    b ∈ emitAll g l ↔ ∃ a ∈ l, b ∈ g a := by
  induction l with
  | nil => simp [emitAll]
  | cons x xs ih => simp [emitAll, ih]

theorem complexityStep_eq (acc : Nat) (n : Node) :
    complexityStep acc n = acc + (if isDecisionPoint n then 1 else 0) := by
  unfold complexityStep
  split <;> simp_all [isDecisionPoint]
  · split <;> simp_all

theorem foldl_complexityStep (l : List Node) (a : Nat) :
    l.foldl complexityStep a = a + l.countP isDecisionPoint := by
  induction l generalizing a with
  | nil => simp
  | cons x xs ih =>
    rw [List.foldl_cons, ih, complexityStep_eq, List.countP_cons]
    by_cases h : isDecisionPoint x
    · simp [h]; omega
    · simp [h]

theorem stringDataAppend (s t : String) : (s ++ t).data = s.data ++ t.data := by
  cases s; cases t; rfl

/-- Two strings built from distinct fixed prefixes differ whenever the
prefixes disagree at some character position, whatever the suffixes. -/
theorem prefix_append_ne (p q : String) (i : Nat) (c d : Char)
    (hp : p.data[i]? = some c) (hq : q.data[i]? = some d) (hcd : c ≠ d)
    (a b : String) : p ++ a ≠ q ++ b := by
  intro h
  have hplen : i < p.data.length := by
    by_contra hlt
    rw [List.getElem?_eq_none (Nat.le_of_not_lt hlt)] at hp
    cases hp
  have hqlen : i < q.data.length := by
    by_contra hlt
    rw [List.getElem?_eq_none (Nat.le_of_not_lt hlt)] at hq
    cases hq
  have hd := congrArg String.data h
  rw [stringDataAppend, stringDataAppend] at hd
  have h1 : (p.data ++ a.data)[i]? = some c := by
    rw [List.getElem?_append, if_pos hplen]; exact hp
  have h2 : (q.data ++ b.data)[i]? = some d := by
    rw [List.getElem?_append, if_pos hqlen]; exact hq
  rw [hd, h2] at h1
  exact hcd (Option.some.inj h1).symm

example : calculateComplexity astTwelveIfs = 13 := by decide

example : analyzeSecurity astTwoEvalsOneLine ("f.js") ("javascript") =
    [securityEvalFinding ("f.js") (callEvalNode 1 0),
     securityEvalFinding ("f.js") (callEvalNode 1 10)] := by decide

example : findNestedLoops (forNode 1 [forNode 2 [forNode 3 []]]) 0 = 3 := by decide

example : analyzePerformance astThreeDoWhiles ("f.js") ("javascript") = [] := by decide

example : (analyzeBugs astReturnThenDead ("f.js") ("javascript")).map (fun f => f.file.line) =
    [2] := by decide

/-- C1: when parsing throws, `analyzeFile` returns exactly one synthetic
finding of type `bug`, severity `high`, rule id `parse-error`, at line 1
column 1, whose description contains the parser's error message, and
metrics with zero complexity/functions/classes but the real line count of
the raw content. -/
theorem claim_C1_parse_failure (now : Nat) (jsParse tsParse : String → Except String Node)
    (path content lang msg : String)
    (h : parseFile jsParse tsParse content lang = .error msg) :
    (analyzeFileFull now jsParse tsParse path content lang).issues =
      [parseErrorFinding now path msg] ∧
    (parseErrorFinding now path msg).type = "bug" ∧
    (parseErrorFinding now path msg).severity = "high" ∧
    (parseErrorFinding now path msg).rule.id = "parse-error" ∧
    (parseErrorFinding now path msg).file.line = 1 ∧
    (parseErrorFinding now path msg).file.column = 1 ∧
    (∃ pre, (parseErrorFinding now path msg).description = pre ++ msg) ∧
    (analyzeFileFull now jsParse tsParse path content lang).metrics =
      { complexity := 0, lines := lineCount content, functions := 0, classes := 0 } := by
  unfold analyzeFileFull
  rw [h]
  exact ⟨rfl, rfl, rfl, rfl, rfl, rfl, ⟨"Failed to parse file: ", rfl⟩, rfl⟩

theorem claim_C1_witness :
    parseFile failingParser failingParser ("x(") ("javascript") =
      .error ("unexpected token") ∧
    (analyzeFileFull 7 failingParser failingParser ("a.js") ("x(") ("javascript")).issues =
      [parseErrorFinding 7 ("a.js") ("unexpected token")] :=
  ⟨rfl,
   (claim_C1_parse_failure 7 failingParser failingParser ("a.js") ("x(") ("javascript")
     ("unexpected token") rfl).1⟩

/-- C2: for every tree, `calculateComplexity` is one plus the number of
visited decision points (if, ternary, switch case, every loop kind, catch
clause, short-circuit `&&`/`||`), hence always at least 1; a program of 12
independent if statements has complexity 13. -/
theorem claim_C2_complexity_count :
    (∀ ast : Node, calculateComplexity ast = 1 + (preorder ast).countP isDecisionPoint ∧
      1 ≤ calculateComplexity ast) ∧
    calculateComplexity astTwelveIfs = 13 := by
  constructor
  · intro ast
    unfold calculateComplexity
    rw [foldl_complexityStep (preorder ast) 1]
    omega
  · decide

/-- C3: `analyzeComplexity` emits a finding iff the file complexity exceeds
the threshold (10); at most one finding is emitted, it sits at line 1
column 1, and its severity is `high` iff the complexity exceeds 20, else
`medium`. -/
theorem claim_C3_complexity_rule (now : Nat) (ast : Node) (path : String) :
    (analyzeComplexity now ast path ≠ [] ↔ complexityThreshold < calculateComplexity ast) ∧
    (analyzeComplexity now ast path).length ≤ 1 ∧
    ∀ f ∈ analyzeComplexity now ast path,
      f.type = "complexity" ∧ f.file.line = 1 ∧ f.file.column = 1 ∧
      f.severity = (if 20 < calculateComplexity ast then "high" else "medium") ∧
      f.rule = complexityRule := by
  unfold analyzeComplexity
  by_cases h : complexityThreshold < calculateComplexity ast
  · simp only [if_pos h]
    refine ⟨by simp [h], by simp, ?_⟩
    intro f hf
    rw [List.mem_singleton] at hf
    subst hf
    exact ⟨rfl, rfl, rfl, rfl, rfl⟩
  · simp [h]

theorem claim_C3_witness :
    (complexityFinding 5 ("a.js") 13).severity =
      (if 20 < calculateComplexity astTwelveIfs then "high" else "medium") ∧
    (analyzeComplexity 5 astTwelveIfs ("a.js")).length ≤ 1 :=
  ⟨((claim_C3_complexity_rule 5 astTwelveIfs ("a.js")).2.2
      (complexityFinding 5 ("a.js") 13) (by decide)).2.2.2.1,
   (claim_C3_complexity_rule 5 astTwelveIfs ("a.js")).2.1⟩

theorem securityChecksAt_filter_eval (path : String) (n : Node) :
    (securityChecksAt path n).filter (fun f => f.rule.id == "no-eval") =
      (if isEvalCall n then [securityEvalFinding path n] else []) := by
  unfold securityChecksAt
  by_cases he : isEvalCall n <;> by_cases hi : isInnerHtmlAccess n <;>
    simp [he, hi, securityEvalFinding, securityInnerHtmlFinding]

/-- C4: on javascript/typescript input, the security analyzer emits exactly
one `no-eval` finding per call whose callee is named `eval`, in traversal
order, each built at the call's source line with severity `critical` and
CWE-95 metadata; on any other language it emits nothing at all. -/
theorem claim_C4_security_eval (ast : Node) (path lang : String) :
    ((lang = "javascript" ∨ lang = "typescript") →
      ((analyzeSecurity ast path lang).filter (fun f => f.rule.id == "no-eval") =
        ((preorder ast).filter isEvalCall).map (securityEvalFinding path)) ∧
      (∀ n : Node, (securityEvalFinding path n).severity = "critical" ∧
        (securityEvalFinding path n).rule.id = "no-eval" ∧
        (securityEvalFinding path n).cwe = ["CWE-95"] ∧
        (securityEvalFinding path n).file.line = n.loc.line ∧
        (securityEvalFinding path n).file.path = path) ∧
      (∀ f ∈ analyzeSecurity ast path lang, f.rule.id = "no-eval" →
        f.severity = "critical" ∧ f.cwe = ["CWE-95"] ∧ f.type = "security")) ∧
    (lang ≠ "javascript" → lang ≠ "typescript" → analyzeSecurity ast path lang = []) := by
  constructor
  · intro hl
    have hgate : (lang == "javascript" || lang == "typescript") = true := by
      rcases hl with h | h <;> subst h <;> rfl
    have hbody : analyzeSecurity ast path lang = emitAll (securityChecksAt path) (preorder ast) := by
      unfold analyzeSecurity
      rw [if_pos hgate, foldl_emit]
      simp
    refine ⟨?_, fun n => ⟨rfl, rfl, rfl, rfl, rfl⟩, ?_⟩
    · rw [hbody, emitAll_filter]
      have hfun : (fun a => (securityChecksAt path a).filter (fun f => f.rule.id == "no-eval")) =
          (fun a => if isEvalCall a then [securityEvalFinding path a] else []) := by
        funext a
        exact securityChecksAt_filter_eval path a
      rw [hfun, emitAll_ite_map]
    · intro f hf hid
      rw [hbody] at hf
      rcases mem_emitAll.mp hf with ⟨n, _, hfn⟩
      unfold securityChecksAt at hfn
      rcases List.mem_append.mp hfn with hmem | hmem
      · by_cases he : isEvalCall n
        · rw [if_pos he, List.mem_singleton] at hmem
          subst hmem
          exact ⟨rfl, rfl, rfl⟩
        · rw [if_neg he] at hmem
          cases hmem
      · by_cases hh : isInnerHtmlAccess n
        · rw [if_pos hh, List.mem_singleton] at hmem
          subst hmem
          simp [securityInnerHtmlFinding] at hid
        · rw [if_neg hh] at hmem
          cases hmem
  · intro h1 h2
    unfold analyzeSecurity
    rw [if_neg]
    simp [h1, h2]

theorem claim_C4_witness :
    (analyzeSecurity astEvalAndInnerHtml ("f.js") ("javascript")).filter
        (fun f => f.rule.id == "no-eval") =
      ((preorder astEvalAndInnerHtml).filter isEvalCall).map (securityEvalFinding ("f.js")) ∧
    analyzeSecurity astEvalAndInnerHtml ("f.js") ("python") = [] :=
  ⟨((claim_C4_security_eval astEvalAndInnerHtml ("f.js") ("javascript")).1 (Or.inl rfl)).1,
   (claim_C4_security_eval astEvalAndInnerHtml ("f.js") ("python")).2 (by decide) (by decide)⟩

/-- C5 as stated is false: when the security analyzer throws after the
complexity analyzer returned one finding and while the performance analyzer
would return another, the later analyzers are skipped (their findings are
absent) and a synthetic parse-error finding is appended, instead of the
failure acting as "zero findings from the failing analyzer with the other
analyzers still running". -/
theorem claim_C5_counterexample :
    c5Run.issues = [sampleFindingA, parseErrorFinding 0 ("f.js") ("security analyzer threw")] ∧
    sampleFindingB ∉ c5Run.issues ∧
    c5Run.issues ≠ [sampleFindingA, sampleFindingB] := by
  decide

/-- C5 amended: an analyzer failure is caught at the `analyzeFile` boundary
(the function still returns a result), the findings of the analyzers that
ran before the failing one are kept, the analyzers after the failing one do
not run, one synthetic parse-error finding is appended, and the tree
metrics are left at the values assigned before the failure (all zero when
an analyzer fails, since metrics are computed after the analyzers). -/
theorem claim_C5_analyzer_failure (now : Nat) (path : String) (lines : Nat) (ast : Node)
    (a1 a2 a3 a4 : Node → Except String (List Finding))
    (m1 m2 m3 : Node → Except String Nat) (e : String) (i1 i2 i3 : List Finding) :
    (a1 ast = .error e →
      analyzeFileSteps now path lines (.ok (some ast)) a1 a2 a3 a4 m1 m2 m3 =
        { issues := [parseErrorFinding now path e]
          metrics := { complexity := 0, lines := lines, functions := 0, classes := 0 } }) ∧
    (a1 ast = .ok i1 → a2 ast = .error e →
      analyzeFileSteps now path lines (.ok (some ast)) a1 a2 a3 a4 m1 m2 m3 =
        { issues := i1 ++ [parseErrorFinding now path e]
          metrics := { complexity := 0, lines := lines, functions := 0, classes := 0 } }) ∧
    (a1 ast = .ok i1 → a2 ast = .ok i2 → a3 ast = .error e →
      analyzeFileSteps now path lines (.ok (some ast)) a1 a2 a3 a4 m1 m2 m3 =
        { issues := i1 ++ i2 ++ [parseErrorFinding now path e]
          metrics := { complexity := 0, lines := lines, functions := 0, classes := 0 } }) ∧
    (a1 ast = .ok i1 → a2 ast = .ok i2 → a3 ast = .ok i3 → a4 ast = .error e →
      analyzeFileSteps now path lines (.ok (some ast)) a1 a2 a3 a4 m1 m2 m3 =
        { issues := i1 ++ i2 ++ i3 ++ [parseErrorFinding now path e]
          metrics := { complexity := 0, lines := lines, functions := 0, classes := 0 } }) := by
  refine ⟨?_, ?_, ?_, ?_⟩
  · intro h1
    simp only [analyzeFileSteps]
    rw [h1]
  · intro h1 h2
    simp only [analyzeFileSteps]
    rw [h1, h2]
  · intro h1 h2 h3
    simp only [analyzeFileSteps]
    rw [h1, h2, h3]
  · intro h1 h2 h3 h4
    simp only [analyzeFileSteps]
    rw [h1, h2, h3, h4]

theorem claim_C5_witness :
    analyzeFileSteps 3 ("g.js") 2 (.ok (some sampleAst))
      (fun _ => .ok [sampleFindingB]) (fun _ => .error ("boom"))
      (fun _ => .ok []) (fun _ => .ok [])
      (fun _ => .ok 1) (fun _ => .ok 0) (fun _ => .ok 0) =
      { issues := [sampleFindingB, parseErrorFinding 3 ("g.js") ("boom")]
        metrics := { complexity := 0, lines := 2, functions := 0, classes := 0 } } :=
  (claim_C5_analyzer_failure 3 ("g.js") 2 sampleAst
    (fun _ => .ok [sampleFindingB]) (fun _ => .error ("boom"))
    (fun _ => .ok []) (fun _ => .ok [])
    (fun _ => .ok 1) (fun _ => .ok 0) (fun _ => .ok 0)
    ("boom") [sampleFindingB] [] []).2.1 rfl rfl

/-- C6 as stated is false for `analyzeRepository`: its loop consults no
cancellation flag, so with a cancellation request issued after file 1 of 2
the result still reports `analyzedFiles = 2` (not 1) and still contains the
second file. -/
theorem claim_C6_counterexample :
    (analyzeRepositoryUnderCancelRequest (some 1) 0 okJsParser okJsParser
        alwaysJavascript twoRepoFiles).summary.analyzedFiles = 2 ∧
    ¬ (analyzeRepositoryUnderCancelRequest (some 1) 0 okJsParser okJsParser
        alwaysJavascript twoRepoFiles).summary.analyzedFiles = 1 ∧
    (analyzeRepositoryUnderCancelRequest (some 1) 0 okJsParser okJsParser
        alwaysJavascript twoRepoFiles).files.map RepoFileEntry.path = ["a.js", "b.js"] := by
  decide

theorem startAnalysisLoop_cancel_general (now : Nat)
    (jsParse tsParse : String → Except String Node) (resolve : String → Option String)
    (sched : Nat → Bool) :
    ∀ (files : List (String × Except String String)) (k i : Nat),
      k < files.length →
      (∀ j, j < k → sched (i + j) = false) →
      sched (i + k) = true →
      (∀ pf ∈ files, fetchOk pf.2 = true) →
      (startAnalysisLoop now jsParse tsParse resolve sched i files).processedFiles = k ∧
      (startAnalysisLoop now jsParse tsParse resolve sched i files).processedPaths =
        (files.take k).map Prod.fst := by
  intro files
  induction files with
  | nil =>
    intro k i hk
    exact absurd hk (by simp)
  | cons pf fs ih =>
    intro k i hk hbefore hat hok
    obtain ⟨path, fetched⟩ := pf
    match k with
    | 0 =>
      have hs : sched i = true := by simpa using hat
      simp [startAnalysisLoop, hs]
    | Nat.succ k' =>
      have hs : sched i = false := by
        have h0 := hbefore 0 (Nat.succ_pos k')
        simpa using h0
      have hfetch : fetchOk fetched = true := hok (path, fetched) (List.mem_cons_self _ _)
      obtain ⟨content, hc⟩ : ∃ c, fetched = .ok c := by
        cases fetched with
        | ok c => exact ⟨c, rfl⟩
        | error e => simp [fetchOk] at hfetch
      subst hc
      have hbefore' : ∀ j, j < k' → sched (i + 1 + j) = false := by
        intro j hj
        have h := hbefore (j + 1) (by omega)
        have heq : i + (j + 1) = i + 1 + j := by omega
        rw [heq] at h
        exact h
      have hat' : sched (i + 1 + k') = true := by
        have heq : i + Nat.succ k' = i + 1 + k' := by omega
        rw [heq] at hat
        exact hat
      have ihh := ih k' (i + 1) (by simpa using hk) hbefore' hat'
        (fun q hq => hok q (List.mem_cons_of_mem _ hq))
      simp only [startAnalysisLoop, hs, if_neg Bool.false_ne_true]
      constructor
      · simpa using ihh.1
      · simp only [List.take_succ_cons, List.map_cons]
        rw [ihh.2]

/-- C6 amended: `analyzeRepository` itself ignores cancellation (see the
counterexample), but the background analysis loop of the analysis route
does check the stored analysis status before starting each file; if that
read first reports `cancelled` before file `k+1` (0-based check `k`), the
loop processes exactly the first `k` files, none of the later files appears,
and files already started are finished, never aborted mid-file. -/
theorem claim_C6_cancellation_loop (now : Nat)
    (jsParse tsParse : String → Except String Node) (resolve : String → Option String)
    (sched : Nat → Bool) (files : List (String × Except String String)) (k : Nat)
    (hk : k < files.length)
    (hbefore : ∀ j, j < k → sched j = false)
    (hat : sched k = true)
    (hok : ∀ pf ∈ files, fetchOk pf.2 = true) :
    (startAnalysisLoop now jsParse tsParse resolve sched 0 files).processedFiles = k ∧
    (startAnalysisLoop now jsParse tsParse resolve sched 0 files).processedPaths =
      (files.take k).map Prod.fst := by
  refine startAnalysisLoop_cancel_general now jsParse tsParse resolve sched files k 0 hk ?_ ?_ hok
  · intro j hj
    simpa using hbefore j hj
  · simpa using hat

theorem claim_C6_witness :
    (startAnalysisLoop 0 okJsParser okJsParser alwaysJavascript schedAfterOne
        0 twoRepoFiles).processedFiles = 1 ∧
    (startAnalysisLoop 0 okJsParser okJsParser alwaysJavascript schedAfterOne
        0 twoRepoFiles).processedPaths = ["a.js"] := by
  have h := claim_C6_cancellation_loop 0 okJsParser okJsParser alwaysJavascript schedAfterOne
    twoRepoFiles 1 (by decide) (by decide) (by decide) (by decide)
  exact ⟨h.1, h.2.trans (by decide)⟩

/-- C7 as stated is false: two `eval` calls on the same source line of the
same file produce two distinct findings that share one id, because the id
is derived only from rule, path and line, with no disambiguator. -/
theorem claim_C7_counterexample :
    ((analyzeSecurity astTwoEvalsOneLine ("f.js") ("javascript"))[0]?).map Finding.id =
      ((analyzeSecurity astTwoEvalsOneLine ("f.js") ("javascript"))[1]?).map Finding.id ∧
    (analyzeSecurity astTwoEvalsOneLine ("f.js") ("javascript"))[0]? ≠
      (analyzeSecurity astTwoEvalsOneLine ("f.js") ("javascript"))[1]? ∧
    (analyzeSecurity astTwoEvalsOneLine ("f.js") ("javascript")).length = 2 := by
  decide

theorem strAppendAssoc (a b c : String) : (a ++ b) ++ c = a ++ (b ++ c) := by
  cases a with
  | mk la =>
    cases b with
    | mk lb =>
      cases c with
      | mk lc => exact congrArg String.mk (List.append_assoc la lb lc)

theorem secPerf_id_shape (ast : Node) (path lang : String) :
    ∀ f ∈ analyzeSecurity ast path lang ++ analyzePerformance ast path lang,
      (f.rule.id = "no-eval" ∧ ∃ s, f.id = "security-eval-" ++ s) ∨
      (f.rule.id = "no-innerHTML" ∧ ∃ s, f.id = "security-innerHTML-" ++ s) ∨
      (f.rule.id = "max-nested-loops" ∧ ∃ s, f.id = "performance-nested-loops-" ++ s) ∨
      (f.rule.id = "max-array-size" ∧ ∃ s, f.id = "performance-large-array-" ++ s) := by
  intro f hf
  rcases List.mem_append.mp hf with hf | hf
  · unfold analyzeSecurity at hf
    by_cases hg : (lang == "javascript" || lang == "typescript") = true
    · rw [if_pos hg, foldl_emit, List.nil_append] at hf
      rcases mem_emitAll.mp hf with ⟨n, _, hfn⟩
      unfold securityChecksAt at hfn
      rcases List.mem_append.mp hfn with hm | hm
      · by_cases he : isEvalCall n
        · rw [if_pos he, List.mem_singleton] at hm
          subst hm
          refine Or.inl ⟨rfl, path ++ ("-" ++ toString n.loc.line), ?_⟩
          show "security-eval-" ++ path ++ "-" ++ toString n.loc.line = _
          rw [strAppendAssoc, strAppendAssoc]
        · rw [if_neg he] at hm
          cases hm
      · by_cases hh : isInnerHtmlAccess n
        · rw [if_pos hh, List.mem_singleton] at hm
          subst hm
          refine Or.inr (Or.inl ⟨rfl, path ++ ("-" ++ toString n.loc.line), ?_⟩)
          show "security-innerHTML-" ++ path ++ "-" ++ toString n.loc.line = _
          rw [strAppendAssoc, strAppendAssoc]
        · rw [if_neg hh] at hm
          cases hm
    · rw [if_neg hg] at hf
      cases hf
  · unfold analyzePerformance at hf
    by_cases hg : (lang == "javascript" || lang == "typescript") = true
    · rw [if_pos hg, foldl_emit, List.nil_append] at hf
      rcases mem_emitAll.mp hf with ⟨n, _, hfn⟩
      unfold performanceChecksAt at hfn
      rcases List.mem_append.mp hfn with hm | hm
      · by_cases ht : (n.ntype == "ForStatement" || n.ntype == "WhileStatement") = true
        · rw [if_pos ht] at hm
          by_cases hd : 2 < findNestedLoops n 0
          · rw [if_pos hd, List.mem_singleton] at hm
            subst hm
            refine Or.inr (Or.inr (Or.inl ⟨rfl, path ++ ("-" ++ toString n.loc.line), ?_⟩))
            show "performance-nested-loops-" ++ path ++ "-" ++ toString n.loc.line = _
            rw [strAppendAssoc, strAppendAssoc]
          · rw [if_neg hd] at hm
            cases hm
        · rw [if_neg ht] at hm
          cases hm
      · by_cases ha : (n.ntype == "ArrayExpression" && 1000 < n.elements.length) = true
        · rw [if_pos ha, List.mem_singleton] at hm
          subst hm
          refine Or.inr (Or.inr (Or.inr ⟨rfl, path ++ ("-" ++ toString n.loc.line), ?_⟩))
          show "performance-large-array-" ++ path ++ "-" ++ toString n.loc.line = _
          rw [strAppendAssoc, strAppendAssoc]
        · rw [if_neg ha] at hm
          cases hm
    · rw [if_neg hg] at hf
      cases hf

theorem ne_evalPre_innerPre (a b : String) :
    "security-eval-" ++ a ≠ "security-innerHTML-" ++ b :=
  prefix_append_ne _ _ 9 'e' 'i' (by decide) (by decide) (by decide) a b

theorem ne_evalPre_nestedPre (a b : String) :
    "security-eval-" ++ a ≠ "performance-nested-loops-" ++ b :=
  prefix_append_ne _ _ 0 's' 'p' (by decide) (by decide) (by decide) a b

theorem ne_evalPre_arrayPre (a b : String) :
    "security-eval-" ++ a ≠ "performance-large-array-" ++ b :=
  prefix_append_ne _ _ 0 's' 'p' (by decide) (by decide) (by decide) a b

theorem ne_innerPre_nestedPre (a b : String) :
    "security-innerHTML-" ++ a ≠ "performance-nested-loops-" ++ b :=
  prefix_append_ne _ _ 0 's' 'p' (by decide) (by decide) (by decide) a b

theorem ne_innerPre_arrayPre (a b : String) :
    "security-innerHTML-" ++ a ≠ "performance-large-array-" ++ b :=
  prefix_append_ne _ _ 0 's' 'p' (by decide) (by decide) (by decide) a b

theorem ne_nestedPre_arrayPre (a b : String) :
    "performance-nested-loops-" ++ a ≠ "performance-large-array-" ++ b :=
  prefix_append_ne _ _ 12 'n' 'l' (by decide) (by decide) (by decide) a b

/-- C7 amended: ids embed rule, file path and line; two findings of the
security/performance analyzers produced by distinct rules never share an id
(the four rule-specific prefixes are pairwise distinguishable), but two
findings of the same rule on the same line of the same file collide, as the
counterexample shows — there is no per-run disambiguator. -/
theorem claim_C7_rule_distinct_ids (ast : Node) (path lang : String) (f g : Finding)
    (hf : f ∈ analyzeSecurity ast path lang ++ analyzePerformance ast path lang)
    (hg : g ∈ analyzeSecurity ast path lang ++ analyzePerformance ast path lang)
    (hr : f.rule.id ≠ g.rule.id) : f.id ≠ g.id := by
  rcases secPerf_id_shape ast path lang f hf with
    ⟨hfr, s, hfs⟩ | ⟨hfr, s, hfs⟩ | ⟨hfr, s, hfs⟩ | ⟨hfr, s, hfs⟩ <;>
    rcases secPerf_id_shape ast path lang g hg with
      ⟨hgr, t, hgt⟩ | ⟨hgr, t, hgt⟩ | ⟨hgr, t, hgt⟩ | ⟨hgr, t, hgt⟩ <;>
    rw [hfs, hgt]
  · exact absurd (hfr.trans hgr.symm) hr
  · exact ne_evalPre_innerPre s t
  · exact ne_evalPre_nestedPre s t
  · exact ne_evalPre_arrayPre s t
  · exact (ne_evalPre_innerPre t s).symm
  · exact absurd (hfr.trans hgr.symm) hr
  · exact ne_innerPre_nestedPre s t
  · exact ne_innerPre_arrayPre s t
  · exact (ne_evalPre_nestedPre t s).symm
  · exact (ne_innerPre_nestedPre t s).symm
  · exact absurd (hfr.trans hgr.symm) hr
  · exact ne_nestedPre_arrayPre s t
  · exact (ne_evalPre_arrayPre t s).symm
  · exact (ne_innerPre_arrayPre t s).symm
  · exact (ne_nestedPre_arrayPre t s).symm
  · exact absurd (hfr.trans hgr.symm) hr

theorem claim_C7_witness :
    (securityEvalFinding ("f.js") (callEvalNode 2 0)).id ≠
      (securityInnerHtmlFinding ("f.js") (memberInnerHtmlNode 2 5)).id :=
  claim_C7_rule_distinct_ids astEvalAndInnerHtml ("f.js") ("javascript") _ _
    (by decide) (by decide) (by decide)

/-- C8: for javascript/typescript input, whenever a return statement inside
a block is followed by a later statement of the same block, the bug
analyzer emits a finding of category `bug` and severity `medium` located at
the first statement after the return — not at the return itself. -/
theorem claim_C8_dead_code (ast : Node) (path lang : String) (ret par : Node) (i : Nat)
    (nxt : Node)
    (hl : lang = "javascript" ∨ lang = "typescript")
    (hmem : (ret, some par) ∈ preorderP none ast)
    (hret : ret.ntype = "ReturnStatement")
    (hpar : par.ntype = "BlockStatement")
    (hidx : idxOfNode ret par.body = some i)
    (hnxt : par.body[i + 1]? = some nxt) :
    ∃ f ∈ analyzeBugs ast path lang,
      f.type = "bug" ∧ f.severity = "medium" ∧ f.file.line = nxt.loc.line ∧
      f.file.column = nxt.loc.column ∧ f.rule.id = "no-unreachable" := by
  refine ⟨unreachableFinding path ret nxt, ?_, rfl, rfl, rfl, rfl, rfl⟩
  have hgate : (lang == "javascript" || lang == "typescript") = true := by
    rcases hl with h | h <;> subst h <;> rfl
  unfold analyzeBugs
  rw [if_pos hgate, foldl_emit, List.nil_append]
  apply mem_emitAll.mpr
  refine ⟨(ret, some par), hmem, ?_⟩
  show unreachableFinding path ret nxt ∈ bugChecksAt path ret (some par)
  have hcond : (ret.ntype == "ReturnStatement" && par.ntype == "BlockStatement") = true := by
    rw [hret, hpar]; rfl
  simp only [bugChecksAt]
  apply List.mem_append.mpr
  left
  rw [if_pos hcond, hidx]
  show unreachableFinding path ret nxt ∈
    (match par.body[i + 1]? with
     | some nxt2 => [unreachableFinding path ret nxt2]
     | none => [])
  rw [hnxt]
  exact List.mem_singleton.mpr rfl

theorem claim_C8_witness :
    ∃ f ∈ analyzeBugs astReturnThenDead ("f.js") ("javascript"),
      f.type = "bug" ∧ f.severity = "medium" ∧
      f.file.line = (exprStmtNode 2).loc.line ∧
      f.file.column = (exprStmtNode 2).loc.column ∧ f.rule.id = "no-unreachable" :=
  claim_C8_dead_code astReturnThenDead ("f.js") ("javascript") (returnNode 1)
    (blockNode 1 [returnNode 1, exprStmtNode 2]) 0 (exprStmtNode 2)
    (Or.inl rfl)
    (List.Mem.tail _ (List.Mem.tail _ (List.Mem.head _)))
    rfl rfl rfl rfl

/-- C9 as stated is false: the nested-loop check is triggered only on
`ForStatement`/`WhileStatement` nodes, so a chain of three nested do-while
loops — whose outermost node is a loop node with `findNestedLoops` depth 3
— produces no performance finding at all. -/
theorem claim_C9_counterexample :
    analyzePerformance astThreeDoWhiles ("f.js") ("javascript") = [] ∧
    2 < findNestedLoops (doWhileNode 1 [doWhileNode 2 [doWhileNode 3 []]]) 0 ∧
    (doWhileNode 1 [doWhileNode 2 [doWhileNode 3 []]]).ntype = "DoWhileStatement" ∧
    doWhileNode 1 [doWhileNode 2 [doWhileNode 3 []]] ∈ preorder astThreeDoWhiles :=
  ⟨by decide, by decide, rfl, List.Mem.tail _ (List.Mem.head _)⟩

theorem performanceChecksAt_filter_nested (path : String) (n : Node) :
    (performanceChecksAt path n).filter (fun f => f.rule.id == "max-nested-loops") =
      (if (n.ntype == "ForStatement" || n.ntype == "WhileStatement") &&
          decide (2 < findNestedLoops n 0) then
        [nestedLoopFinding path n (findNestedLoops n 0)]
      else []) := by
  unfold performanceChecksAt
  by_cases ht : (n.ntype == "ForStatement" || n.ntype == "WhileStatement") = true <;>
    by_cases hd : 2 < findNestedLoops n 0 <;>
    by_cases ha : (n.ntype == "ArrayExpression" && decide (1000 < n.elements.length)) = true <;>
    simp [ht, hd, ha, nestedLoopFinding, largeArrayFinding]

/-- C9 amended: on javascript/typescript input the performance analyzer
emits one medium finding per `for`/`while` node whose `findNestedLoops`
depth (which counts for, while and do-while, the node itself included)
exceeds 2 — do-while, for-in and for-of nodes never trigger the check even
at depth > 2 (see the counterexample).  Three nested `for` loops yield
exactly one finding, at the outermost loop's line, citing 3 levels. -/
theorem claim_C9_nested_loops :
    (∀ (ast : Node) (path lang : String), (lang = "javascript" ∨ lang = "typescript") →
      ((analyzePerformance ast path lang).filter (fun f => f.rule.id == "max-nested-loops") =
        ((preorder ast).filter (fun n =>
            (n.ntype == "ForStatement" || n.ntype == "WhileStatement") &&
            decide (2 < findNestedLoops n 0))).map
          (fun n => nestedLoopFinding path n (findNestedLoops n 0))) ∧
      (∀ f ∈ analyzePerformance ast path lang, f.rule.id = "max-nested-loops" →
        f.severity = "medium" ∧ f.type = "performance")) ∧
    ((analyzePerformance astThreeFors ("f.js") ("javascript")).map Finding.title =
      ["Deeply nested loops (3 levels)"]) ∧
    ((analyzePerformance astThreeFors ("f.js") ("javascript")).map (fun f => f.file.line) =
      [1]) := by
  refine ⟨?_, by decide, by decide⟩
  intro ast path lang hl
  have hgate : (lang == "javascript" || lang == "typescript") = true := by
    rcases hl with h | h <;> subst h <;> rfl
  have hbody : analyzePerformance ast path lang =
      emitAll (performanceChecksAt path) (preorder ast) := by
    unfold analyzePerformance
    rw [if_pos hgate, foldl_emit]
    simp
  constructor
  · rw [hbody, emitAll_filter]
    have hfun : (fun a => (performanceChecksAt path a).filter
          (fun f => f.rule.id == "max-nested-loops")) =
        (fun a => if (a.ntype == "ForStatement" || a.ntype == "WhileStatement") &&
            decide (2 < findNestedLoops a 0) then
          [nestedLoopFinding path a (findNestedLoops a 0)] else []) := by
      funext a
      exact performanceChecksAt_filter_nested path a
    rw [hfun, emitAll_ite_map]
  · intro f hf hid
    rw [hbody] at hf
    rcases mem_emitAll.mp hf with ⟨n, _, hfn⟩
    unfold performanceChecksAt at hfn
    rcases List.mem_append.mp hfn with hm | hm
    · by_cases ht : (n.ntype == "ForStatement" || n.ntype == "WhileStatement") = true
      · rw [if_pos ht] at hm
        by_cases hd : 2 < findNestedLoops n 0
        · rw [if_pos hd, List.mem_singleton] at hm
          subst hm
          exact ⟨rfl, rfl⟩
        · rw [if_neg hd] at hm
          cases hm
      · rw [if_neg ht] at hm
        cases hm
    · by_cases ha : (n.ntype == "ArrayExpression" && decide (1000 < n.elements.length)) = true
      · rw [if_pos ha, List.mem_singleton] at hm
        subst hm
        simp [largeArrayFinding] at hid
      · rw [if_neg ha] at hm
        cases hm

theorem claim_C9_witness :
    (analyzePerformance astThreeFors ("f.js") ("javascript")).filter
        (fun f => f.rule.id == "max-nested-loops") =
      ((preorder astThreeFors).filter (fun n =>
          (n.ntype == "ForStatement" || n.ntype == "WhileStatement") &&
          decide (2 < findNestedLoops n 0))).map
        (fun n => nestedLoopFinding ("f.js") n (findNestedLoops n 0)) :=
  (claim_C9_nested_loops.1 astThreeFors ("f.js") ("javascript") (Or.inl rfl)).1

/-- C10: every resolved language other than javascript/typescript yields
zero findings regardless of content — python parses to the fixed empty
Module stub (complexity metric 1, no findings), while java/go/rust/cpp hit
the default parse branch, get no tree, run no analyzer, and keep metrics
complexity 0; the resolver maps `.py`/`.java`/`.go`/`.rs`/`.cpp` to these
languages. -/
theorem claim_C10_non_js_languages (now : Nat) (jsParse tsParse : String → Except String Node)
    (path content lang : String)
    (hl : lang = "python" ∨ lang = "java" ∨ lang = "go" ∨ lang = "rust" ∨ lang = "cpp") :
    (analyzeFileFull now jsParse tsParse path content lang).issues = [] ∧
    (lang = "python" →
      parseFile jsParse tsParse content lang = .ok (some (parsePython content))) ∧
    (lang ≠ "python" →
      parseFile jsParse tsParse content lang = .ok none ∧
      (analyzeFileFull now jsParse tsParse path content lang).metrics.complexity = 0) ∧
    (getLanguageFromExt (".py") = some ("python") ∧
     getLanguageFromExt (".java") = some ("java") ∧
     getLanguageFromExt (".go") = some ("go") ∧
     getLanguageFromExt (".rs") = some ("rust") ∧
     getLanguageFromExt (".cpp") = some ("cpp")) := by
  rcases hl with h | h | h | h | h <;> subst h
  · exact ⟨rfl, fun _ => rfl, fun hne => absurd rfl hne, by decide⟩
  · exact ⟨rfl, fun hpy => absurd hpy (by decide), fun _ => ⟨rfl, rfl⟩, by decide⟩
  · exact ⟨rfl, fun hpy => absurd hpy (by decide), fun _ => ⟨rfl, rfl⟩, by decide⟩
  · exact ⟨rfl, fun hpy => absurd hpy (by decide), fun _ => ⟨rfl, rfl⟩, by decide⟩
  · exact ⟨rfl, fun hpy => absurd hpy (by decide), fun _ => ⟨rfl, rfl⟩, by decide⟩

theorem claim_C10_witness :
    (analyzeFileFull 2 failingParser failingParser ("m.go") ("package main") ("go")).issues =
      [] ∧
    (analyzeFileFull 2 failingParser failingParser ("m.go") ("package main")
      ("go")).metrics.complexity = 0 :=
  ⟨(claim_C10_non_js_languages 2 failingParser failingParser ("m.go") ("package main") ("go")
      (Or.inr (Or.inr (Or.inl rfl)))).1,
   ((claim_C10_non_js_languages 2 failingParser failingParser ("m.go") ("package main") ("go")
      (Or.inr (Or.inr (Or.inl rfl)))).2.2.1 (by decide)).2⟩
